import Mathlib

/-!
Shallow embedding of the url-shortner data-path service logic:
`app/services/url_service.py` (short-code generation, create, resolve, stats),
`app/db/redis.py` (volatile cache adapter), the Cassandra tables it drives,
and `app/middleware/rate_limit.py` (both sliding-window rate limiters).

Machine integers are modelled as `Nat`/`Int`; time is an explicit `Int`
parameter (seconds); randomness (`secrets.token_bytes`) is an explicit byte-list
parameter; the SHA-256 digest and the two security validators (external
collaborators per the design) are abstract function parameters.
-/

namespace UrlShortner

/-- Model of FastAPI's `HTTPException`: a status code and a detail message. -/
structure HTTPError where
  status : Nat
  detail : String
deriving DecidableEq, Repr

/-- The base64url alphabet used by Python's `base64.urlsafe_b64encode`. -/
def b64Alphabet : List Char :=
  "ABCDEFGHIJKLMNOPQRSTUVWXYZabcdefghijklmnopqrstuvwxyz0123456789-_".toList

/-- Character of the base64url alphabet at index `n`. -/
def b64Char (n : Nat) : Char := b64Alphabet.getD n 'A'

/-- Model of base64url encoding of a byte list (bytes as `Nat < 256`), with `=`
padding, as `base64.urlsafe_b64encode` produces it. -/
def b64urlEncode : List Nat → List Char
  | [] => []
  | [b1] => [b64Char (b1 / 4), b64Char (b1 % 4 * 16), '=', '=']
  | [b1, b2] => [b64Char (b1 / 4), b64Char (b1 % 4 * 16 + b2 / 16), b64Char (b2 % 16 * 4), '=']
  | b1 :: b2 :: b3 :: rest =>
      b64Char (b1 / 4) :: b64Char (b1 % 4 * 16 + b2 / 16) ::
      b64Char (b2 % 16 * 4 + b3 / 64) :: b64Char (b3 % 64) :: b64urlEncode rest

/-- Hexadecimal digit at index `n`. -/
def hexDigit (n : Nat) : Char := "0123456789abcdef".toList.getD n '0'

/-- Model of Python's `bytes.hex()` / `hashlib.sha256(...).hexdigest()` tail:
two lowercase hex digits per byte. -/
def bytesToHex : List Nat → List Char
  | [] => []
  | b :: rest => hexDigit (b / 16) :: hexDigit (b % 16) :: bytesToHex rest

/-- Model of `URLService.get_url_hash`: the SHA-256 hexdigest of the URL.
The digest itself is abstracted as the parameter `sha`, giving the 32 digest
bytes of a string. -/
def get_url_hash (sha : String → List Nat) (url : String) : String :=
  String.mk (bytesToHex (sha url))

/-- Model of `URLService.generate_short_code`: the first 4 bytes of the SHA-256
digest of the URL, concatenated with 2 random bytes (`rand2` stands for
`secrets.token_bytes(2)`), base64url-encoded and truncated to 8 characters. -/
def generate_short_code (sha : String → List Nat) (rand2 : List Nat) (url : String) : String :=
  String.mk ((b64urlEncode ((sha url).take 4 ++ rand2)).take 8)

/-- Model of the collision fallback in `create_short_url`:
`base64.urlsafe_b64encode(secrets.token_bytes(6)).decode()[:8]`, where `rand6`
stands for the 6 fresh random bytes.  The URL is not consulted. -/
def fallback_code (rand6 : List Nat) : String :=
  String.mk ((b64urlEncode rand6).take 8)

/-- Row of the Cassandra `urls` table (keyed by `short_code`). -/
structure URLRecord where
  long_url : String
  created_at : Int
  expires_at : Option Int
  user_id : Option String
deriving DecidableEq, Repr

/-- Pointwise update of a string-keyed map. -/
def upd {α : Type} (f : String → α) (k : String) (v : α) : String → α :=
  fun x => if x = k then v else f x

/-- The durable store (Cassandra): the `urls`, `url_dedup` and `url_clicks`
tables, keyed by `short_code`, `url_hash` and `short_code` respectively.
A `clicks` row exists only once the counter has been touched. -/
structure DB where
  urls : String → Option URLRecord
  dedup : String → Option String
  clicks : String → Option Nat

/-- Model of `UPDATE url_clicks SET click_count = click_count + 1 WHERE
short_code = ?` (a Cassandra counter implicitly starts at 0). -/
def DB.incr_clicks (db : DB) (code : String) : DB :=
  { db with clicks := upd db.clicks code (some ((db.clicks code).getD 0 + 1)) }

/-- The volatile cache (`RedisCache` in `app/db/redis.py`).  `up = false`
models an unavailable client (`self.client is None`, or every call raising
`redis.RedisError`): reads return `None` and writes are no-ops, exactly as the
adapter degrades. -/
structure Cache where
  up : Bool
  urlC : String → Option String
  dedupC : String → Option String

/-- Model of `RedisCache.get_url` (`url:` namespace). -/
def Cache.get_url (c : Cache) (code : String) : Option String :=
  if c.up then c.urlC code else none

/-- Model of `RedisCache.set_url`. -/
def Cache.set_url (c : Cache) (code url : String) : Cache :=
  if c.up then { c with urlC := upd c.urlC code (some url) } else c

/-- Model of `RedisCache.delete_url`. -/
def Cache.delete_url (c : Cache) (code : String) : Cache :=
  if c.up then { c with urlC := upd c.urlC code none } else c

/-- Model of `RedisCache.get_dedup` (`dedup:` namespace). -/
def Cache.get_dedup (c : Cache) (h : String) : Option String :=
  if c.up then c.dedupC h else none

/-- Model of `RedisCache.set_dedup`. -/
def Cache.set_dedup (c : Cache) (h code : String) : Cache :=
  if c.up then { c with dedupC := upd c.dedupC h (some code) } else c

/-- Combined service state: durable store plus volatile cache. -/
structure SState where
  db : DB
  cache : Cache

/-- Model of the `ShortenRequest` schema (the URL already a plain string). -/
structure ShortenRequest where
  url : String
  custom_alias : Option String
  user_id : Option String
  ttl_days : Nat

/-- Model of the `ShortenResponse` schema. -/
structure ShortenResponse where
  short_code : String
  short_url : String
  long_url : String
deriving DecidableEq, Repr

/-- Model of the `URLStats` schema. -/
structure URLStats where
  short_code : String
  long_url : String
  clicks : Nat
  expires_at : Option Int
deriving DecidableEq, Repr

/-- Value of `settings.base_url`. -/
def base_url : String := "http://localhost:8000"

/-- Seconds in a day, for `timedelta(days=ttl_days)`. -/
def secondsPerDay : Int := 86400

/-- Error raised on `customAlias` conflict (HTTP 409). -/
def errAliasTaken : HTTPError := ⟨409, "This custom alias is already taken"⟩

/-- Error raised when the fallback code is also occupied (HTTP 500). -/
def errGenExhausted : HTTPError := ⟨500, "Failed to generate unique short code"⟩

/-- Error raised for unknown or syntactically invalid short codes (HTTP 404). -/
def errNotFound : HTTPError := ⟨404, "URL not found"⟩

/-- Error raised for lapsed short codes (HTTP 410). -/
def errExpired : HTTPError := ⟨410, "URL expired"⟩

/-- Error raised by `SecurityValidator.check_url_safety` (HTTP 400). -/
def errBadUrl : HTTPError := ⟨400, "URL validation failed"⟩

/-- Error raised by `SecurityValidator.check_alias_safety` (HTTP 400). -/
def errBadAlias : HTTPError := ⟨400, "Custom alias validation failed"⟩

/-- Shared tail of `create_short_url` (steps 4-5 of the Python flow): insert
the URL record and the dedup row into Cassandra, write-through both cache
projections, and return the response. -/
def insert_and_respond (url_hash short_code : String) (now : Int)
    (req : ShortenRequest) (s : SState) : Except HTTPError ShortenResponse × SState :=
  let expires_at := now + (req.ttl_days : Int) * secondsPerDay
  let rec1 : URLRecord := ⟨req.url, now, some expires_at, req.user_id.map (fun u => u.take 100)⟩
  let db1 : DB := { s.db with urls := upd s.db.urls short_code (some rec1),
                              dedup := upd s.db.dedup url_hash (some short_code) }
  let c1 := (s.cache.set_url short_code req.url).set_dedup url_hash short_code
  (.ok ⟨short_code, base_url ++ "/" ++ short_code, req.url⟩, ⟨db1, c1⟩)

/-- Model of `URLService.create_short_url`.  `sha` abstracts the SHA-256
digest; `urlSafe` and `aliasSafe` abstract `SecurityValidator.check_url_safety`
and `check_alias_safety` (external collaborators per the design, raising
HTTP 400 on failure); `rand2`/`rand6` are the random bytes drawn by
`generate_short_code` and by the collision fallback; `now` is the current
time in seconds. -/
def create_short_url (sha : String → List Nat) (urlSafe aliasSafe : String → Bool)
    (rand2 rand6 : List Nat) (now : Int) (req : ShortenRequest) (s : SState) :
    Except HTTPError ShortenResponse × SState :=
  if urlSafe req.url = false then (.error errBadUrl, s)
  else if req.custom_alias.elim true aliasSafe = false then (.error errBadAlias, s)
  else
    let url_hash := get_url_hash sha req.url
    match s.cache.get_dedup url_hash with
    | some code => (.ok ⟨code, base_url ++ "/" ++ code, req.url⟩, s)
    | none =>
      match s.db.dedup url_hash with
      | some code =>
          (.ok ⟨code, base_url ++ "/" ++ code, req.url⟩,
           { s with cache := s.cache.set_dedup url_hash code })
      | none =>
        let short_code := match req.custom_alias with
          | some a => a
          | none => generate_short_code sha rand2 req.url
        match s.db.urls short_code with
        | none => insert_and_respond url_hash short_code now req s
        | some _ =>
          if req.custom_alias.isSome then (.error errAliasTaken, s)
          else
            let fb := fallback_code rand6
            match s.db.urls fb with
            | some _ => (.error errGenExhausted, s)
            | none => insert_and_respond url_hash fb now req s

/-- Character class allowed in a short code: alphanumeric, hyphen, underscore
(Python's `c.isalnum() or c in '-_'`, modelled on the ASCII fragment). -/
def valid_code_char (c : Char) : Bool := c.isAlphanum || c = '-' || c = '_'

/-- Model of `URLService.get_long_url` (the resolve path).  The asynchronous
fire-and-forget click increment is modelled as taking effect on the durable
store (its failure is logged, never surfaced). -/
def get_long_url (now : Int) (short_code : String) (s : SState) :
    Except HTTPError String × SState :=
  if short_code = "" ∨ 30 < short_code.length then (.error errNotFound, s)
  else if ¬ short_code.toList.all valid_code_char = true then (.error errNotFound, s)
  else
    match s.cache.get_url short_code with
    | some cached => (.ok cached, { s with db := s.db.incr_clicks short_code })
    | none =>
      match s.db.urls short_code with
      | none => (.error errNotFound, s)
      | some row =>
        match row.expires_at with
        | some e =>
          if e < now then
            (.error errExpired, { s with cache := s.cache.delete_url short_code })
          else
            (.ok row.long_url,
             ⟨s.db.incr_clicks short_code, s.cache.set_url short_code row.long_url⟩)
        | none =>
            (.ok row.long_url,
             ⟨s.db.incr_clicks short_code, s.cache.set_url short_code row.long_url⟩)

/-- Model of `URLService.get_stats`: always reads through to the durable
store, never the cache, and performs no expiry check and no state change. -/
def get_stats (short_code : String) (s : SState) : Except HTTPError URLStats :=
  if short_code = "" ∨ 30 < short_code.length then .error errNotFound
  else if ¬ short_code.toList.all valid_code_char = true then .error errNotFound
  else
    match s.db.urls short_code with
    | none => .error errNotFound
    | some row =>
        .ok ⟨short_code, row.long_url, (s.db.clicks short_code).getD 0, row.expires_at⟩

/-- State of `InMemoryRateLimiter`: `self._requests`, mapping each key to the
list of admitted request timestamps (`defaultdict(list)`). -/
def RLState := String → List Int

/-- The limiter's initial state: no recorded requests. -/
def emptyRL : RLState := fun _ => []

/-- Model of `InMemoryRateLimiter.is_allowed`.  Returns
`((allowed, remaining, reset), new state)`.  Timestamps outside the trailing
window are pruned and written back before the count check, so a rejected call
leaves exactly the pruned list. -/
def inmem_is_allowed (st : RLState) (key : String) (lim : Nat) (win now : Int) :
    (Bool × Nat × Int) × RLState :=
  let pruned := (st key).filter (fun ts => decide (now - win < ts))
  if lim ≤ pruned.length then
    let oldest := match pruned with
      | [] => now
      | x :: xs => xs.foldl min x
    ((false, 0, max 1 (oldest + win - now)), upd st key pruned)
  else
    ((true, lim - (pruned.length + 1), win), upd st key (pruned ++ [now]))

/-- The Redis connection behind `RedisRateLimiter`: absent (`self.redis is
None`), raising on every operation, or live with one sorted set per key.
Members are the timestamps themselves (Python uses `str(now)` as the member
with score `now`), so each set holds distinct timestamps and adding an
existing one is a no-op. -/
inductive RedisConn where
  | down : RedisConn
  | err : RedisConn
  | live (z : String → List Int) : RedisConn

/-- Model of `RedisRateLimiter.is_allowed`:
`ZREMRANGEBYSCORE key 0 (now-window)`, `ZADD key {str(now): now}`, `ZCARD`,
`EXPIRE`; on a count above the limit, reject and `ZREM` the member just added;
fail open when the connection is absent or any operation raises. -/
def redis_is_allowed (conn : RedisConn) (key : String) (lim : Nat) (win now : Int) :
    (Bool × Nat × Int) × RedisConn :=
  match conn with
  | .down => ((true, lim, win), .down)
  | .err => ((true, lim, win), .err)
  | .live z =>
    let pk := "ratelimit:" ++ key
    let pruned := (z pk).filter (fun ts => decide (ts < 0) || decide (now - win < ts))
    let added := if now ∈ pruned then pruned else pruned ++ [now]
    if lim < added.length then
      ((false, 0, win), .live (upd z pk (added.filter (fun ts => !decide (ts = now)))))
    else
      ((true, lim - added.length, win), .live (upd z pk added))

/-! ## Helper lemmas -/

theorem upd_same {α : Type} (f : String → α) (k : String) (v : α) : upd f k v k = v := by
  simp [upd]

theorem upd_ne {α : Type} (f : String → α) (k x : String) (v : α) (h : x ≠ k) :
    upd f k v x = f x := by
  simp [upd, h]

theorem delete_url_get (c : Cache) (code : String) :
    (c.delete_url code).get_url code = none := by
  by_cases h : c.up = true <;>
    simp [Cache.delete_url, Cache.get_url, h, upd_same]

/-! ## Sample states for witnesses and counterexamples -/

/-- A digest function usable in closed witnesses (every claim theorem is
quantified over the digest, so any concrete choice instantiates it). -/
def cSha : String → List Nat := fun _ => List.replicate 32 0

/-- A validator that accepts everything, for closed witnesses. -/
def cTrue : String → Bool := fun _ => true

/-- The empty service state with an available cache. -/
def emptySState : SState :=
  ⟨⟨fun _ => none, fun _ => none, fun _ => none⟩, ⟨true, fun _ => none, fun _ => none⟩⟩

/-- A state holding one record `Ab3xQ9kL` that expired at time 10, with the
cache empty. -/
def expiredUncachedState : SState :=
  ⟨⟨upd (fun _ => none) "Ab3xQ9kL" (some ⟨"https://example.com/a", 0, some 10, none⟩),
    fun _ => none, fun _ => none⟩,
   ⟨true, fun _ => none, fun _ => none⟩⟩

/-- The same expired record, but with its `shortCode→longURL` entry present in
the volatile cache. -/
def expiredCachedState : SState :=
  ⟨⟨upd (fun _ => none) "Ab3xQ9kL" (some ⟨"https://example.com/a", 0, some 10, none⟩),
    fun _ => none, fun _ => none⟩,
   ⟨true, upd (fun _ => none) "Ab3xQ9kL" (some "https://example.com/a"), fun _ => none⟩⟩

/-! ## C5 — fail-open of the distributed rate limiter -/

/-- C5: when the volatile cache backing the distributed limiter is unreachable
(no client, or any cache operation raising), `is_allowed` always returns
allowed, reporting `remaining = limit` (and `reset = window`), and leaves the
connection state unchanged. -/
theorem redis_limiter_fails_open (key : String) (lim : Nat) (win now : Int) :
    redis_is_allowed .down key lim win now = ((true, lim, win), .down) ∧
    redis_is_allowed .err key lim win now = ((true, lim, win), .err) :=
  ⟨rfl, rfl⟩

/-! ## C9 — stats never enforce expiration -/

/-- C9: `get_stats` never enforces expiration: for a stored record whose
`expires_at` lies in the past it still succeeds, returning the record's code,
long URL, click count and `expires_at`, rather than failing. -/
theorem get_stats_ignores_expiry (s : SState) (code : String) (row : URLRecord)
    (now e : Int)
    (hv1 : ¬ (code = "" ∨ 30 < code.length))
    (hv2 : code.toList.all valid_code_char = true)
    (hrow : s.db.urls code = some row)
    (hexp : row.expires_at = some e) (hpast : e < now) :
    get_stats code s = .ok ⟨code, row.long_url, (s.db.clicks code).getD 0, row.expires_at⟩ := by
  unfold get_stats
  rw [if_neg hv1, if_neg (not_not_intro hv2), hrow]

/-- Witness for C9 at a concrete expired record. -/
theorem get_stats_ignores_expiry_witness :
    get_stats "Ab3xQ9kL" expiredUncachedState =
      .ok ⟨"Ab3xQ9kL", "https://example.com/a", 0, some 10⟩ :=
  get_stats_ignores_expiry expiredUncachedState "Ab3xQ9kL"
    ⟨"https://example.com/a", 0, some 10, none⟩ 100 10
    (by decide) (by decide) rfl rfl (by decide)

/-! ## C7 — invalid short codes resolve to the NotFound signal, no I/O -/

/-- C7: a syntactically invalid short code (empty, longer than 30 characters,
or containing a character outside alphanumerics, hyphen and underscore)
resolves to the 404 NotFound error with the state returned unchanged, for
every state and time — so no cache or durable-store effect precedes the
failure and the result is independent of both stores; and a well-formed but
unknown code (cache and durable miss) yields the identical error value. -/
theorem resolve_invalid_code_not_found (now : Int) (code : String) (s : SState) :
    ((code = "" ∨ 30 < code.length ∨ ¬ code.toList.all valid_code_char = true) →
       get_long_url now code s = (.error errNotFound, s)) ∧
    (¬ (code = "" ∨ 30 < code.length) → code.toList.all valid_code_char = true →
       s.cache.get_url code = none → s.db.urls code = none →
       get_long_url now code s = (.error errNotFound, s)) := by
  constructor
  · intro hbad
    unfold get_long_url
    by_cases h : code = "" ∨ 30 < code.length
    · rw [if_pos h]
    · rw [if_neg h, if_pos (by tauto)]
  · intro h1 h2 hc hd
    unfold get_long_url
    rw [if_neg h1, if_neg (not_not_intro h2), hc, hd]

/-- Witness for C7: a code with a space fails as NotFound with the state
unchanged, and an unknown well-formed code gives the identical signal. -/
theorem resolve_invalid_code_not_found_witness :
    get_long_url 0 "bad code" emptySState = (.error errNotFound, emptySState) ∧
    get_long_url 0 "unknown1" emptySState = (.error errNotFound, emptySState) :=
  ⟨(resolve_invalid_code_not_found 0 "bad code" emptySState).1 (by decide),
   (resolve_invalid_code_not_found 0 "unknown1" emptySState).2
     (by decide) (by decide) rfl rfl⟩

/-! ## C8 — shape of the generated short code -/

/-- C8: `generate_short_code` returns exactly the first 8 characters of the
base64url encoding of (first 4 digest bytes ++ the 2 random bytes); the code
is 8 characters long; and its hash-derived first 5 characters are a
deterministic function of the URL, unchanged under different random bytes. -/
theorem generate_short_code_spec (sha : String → List Nat) (url : String)
    (rand2 rand2b : List Nat)
    (hsha : (sha url).length = 32) (hr : rand2.length = 2) (hrb : rand2b.length = 2) :
    generate_short_code sha rand2 url =
      String.mk ((b64urlEncode ((sha url).take 4 ++ rand2)).take 8) ∧
    (generate_short_code sha rand2 url).length = 8 ∧
    (generate_short_code sha rand2 url).toList.take 5 =
      (generate_short_code sha rand2b url).toList.take 5 := by
  obtain ⟨r0, r1, hr2⟩ := List.length_eq_two.mp hr
  obtain ⟨q0, q1, hq2⟩ := List.length_eq_two.mp hrb
  rcases hl : sha url with _ | ⟨a, _ | ⟨b, _ | ⟨c, _ | ⟨d, rest⟩⟩⟩⟩ <;>
    rw [hl] at hsha <;> simp at hsha
  refine ⟨?_, ?_, ?_⟩
  · unfold generate_short_code
    rw [hl]
  · unfold generate_short_code
    rw [hl, hr2]
    rfl
  · unfold generate_short_code
    rw [hl, hr2, hq2]
    rfl

/-- Witness for C8 at a concrete digest and two choices of random bytes. -/
theorem generate_short_code_spec_witness :
    generate_short_code cSha [0, 0] "https://example.com/a" =
      String.mk ((b64urlEncode ((cSha "https://example.com/a").take 4 ++ [0, 0])).take 8) ∧
    (generate_short_code cSha [0, 0] "https://example.com/a").length = 8 ∧
    (generate_short_code cSha [0, 0] "https://example.com/a").toList.take 5 =
      (generate_short_code cSha [9, 9] "https://example.com/a").toList.take 5 :=
  generate_short_code_spec cSha "https://example.com/a" [0, 0] [9, 9]
    (by decide) (by decide) (by decide)

/-! ## C1 — expiry on the resolve path -/

/-- C1 counterexample: a stored record whose `expires_at` (10) lies in the
past (now = 100), but whose `shortCode→longURL` entry is present in the
volatile cache, resolves successfully from the cache instead of failing with
Expired — the claim's "regardless of cache state" does not hold. -/
theorem resolve_expired_cached_succeeds :
    (get_long_url 100 "Ab3xQ9kL" expiredCachedState).1 = .ok "https://example.com/a" ∧
    expiredCachedState.db.urls "Ab3xQ9kL" =
      some ⟨"https://example.com/a", 0, some 10, none⟩ ∧
    (10 : Int) < 100 :=
  ⟨rfl, rfl, by decide⟩

/-- C1 (amended): whenever the volatile cache holds no `shortCode→longURL`
entry for the code, resolving a stored record whose `expires_at` lies in the
past fails with the 410 Expired error — an error value distinct from the 404
NotFound one — and afterwards the cache entry for the code is absent; this
covers in particular a record stored with an already-past `expires_at` whose
cache entry is missing or evicted. -/
theorem resolve_expired_uncached (now e : Int) (code : String) (s : SState)
    (row : URLRecord)
    (hv1 : ¬ (code = "" ∨ 30 < code.length))
    (hv2 : code.toList.all valid_code_char = true)
    (hc : s.cache.get_url code = none)
    (hrow : s.db.urls code = some row)
    (hexp : row.expires_at = some e)
    (hpast : e < now) :
    get_long_url now code s =
      (.error errExpired, { s with cache := s.cache.delete_url code }) ∧
    ({ s with cache := s.cache.delete_url code } : SState).cache.get_url code = none ∧
    errExpired ≠ errNotFound := by
  refine ⟨?_, delete_url_get s.cache code, by decide⟩
  unfold get_long_url
  rw [if_neg hv1, if_neg (not_not_intro hv2)]
  simp only [hc, hrow, hexp]
  rw [if_pos hpast]

/-- Witness for the amended C1 at a concrete expired, uncached record. -/
theorem resolve_expired_uncached_witness :
    get_long_url 100 "Ab3xQ9kL" expiredUncachedState =
      (.error errExpired,
       { expiredUncachedState with
           cache := expiredUncachedState.cache.delete_url "Ab3xQ9kL" }) ∧
    ({ expiredUncachedState with
         cache := expiredUncachedState.cache.delete_url "Ab3xQ9kL" } : SState).cache.get_url
        "Ab3xQ9kL" = none ∧
    errExpired ≠ errNotFound :=
  resolve_expired_uncached 100 10 "Ab3xQ9kL" expiredUncachedState
    ⟨"https://example.com/a", 0, some 10, none⟩
    (by decide) (by decide) rfl rfl rfl (by decide)

/-! ## C4 — sliding-window rate limiting -/

/-- Run of successive checks at the given times against the in-memory limiter,
collecting the produced `(allowed, remaining, reset)` triples. -/
def inmemRun (st : RLState) (key : String) (lim : Nat) (win : Int) :
    List Int → List (Bool × Nat × Int)
  | [] => []
  | t :: ts =>
    let r := inmem_is_allowed st key lim win t
    r.1 :: inmemRun r.2 key lim win ts

/-- Run of successive checks at the given times against the distributed
limiter, collecting the produced `(allowed, remaining, reset)` triples. -/
def redisRun (conn : RedisConn) (key : String) (lim : Nat) (win : Int) :
    List Int → List (Bool × Nat × Int)
  | [] => []
  | t :: ts =>
    let r := redis_is_allowed conn key lim win t
    r.1 :: redisRun r.2 key lim win ts

/-- C4: sliding-window rate limiting.  A check is allowed iff fewer than
`lim` admitted timestamps lie within the trailing window (first conjunct);
and, for every key, with limit 5 and window 60 seconds: five successive calls
are allowed, the sixth is rejected with `remaining = 0`, and once time has
advanced past the window a further call is allowed again — for both the
in-memory and the distributed limiter (starting from no recorded requests). -/
theorem sliding_window_limit (st : RLState) (key : String) (lim : Nat) (win now : Int) :
    ((inmem_is_allowed st key lim win now).1.1 = true ↔
       ((st key).filter (fun ts => decide (now - win < ts))).length < lim) ∧
    inmemRun emptyRL key 5 60 [0, 1, 2, 3, 4, 5, 70] =
      [(true, 4, 60), (true, 3, 60), (true, 2, 60), (true, 1, 60), (true, 0, 60),
       (false, 0, 55), (true, 4, 60)] ∧
    redisRun (.live fun _ => []) key 5 60 [0, 1, 2, 3, 4, 5, 70] =
      [(true, 4, 60), (true, 3, 60), (true, 2, 60), (true, 1, 60), (true, 0, 60),
       (false, 0, 60), (true, 4, 60)] := by
  refine ⟨?_, ?_, ?_⟩
  · simp only [inmem_is_allowed]
    by_cases h : lim ≤ ((st key).filter (fun ts => decide (now - win < ts))).length
    · rw [if_pos h]
      simp
      omega
    · rw [if_neg h]
      simp
      omega
  · simp [inmemRun, inmem_is_allowed, emptyRL, upd_same]
  · simp [redisRun, redis_is_allowed, upd_same]

/-! ## C10 — a rejected check consumes no quota -/

/-- C10: a rejected rate-limit check consumes no quota.  In-memory limiter: a
rejected call stores exactly the pre-state list pruned to the trailing window,
so later admissibility is unchanged.  Distributed limiter: from any state
whose recorded set for the key is within the limit, a rejected call stores
exactly the pruned pre-state set — and that bound is an invariant: every call
leaves at most `lim` recorded timestamps. -/
theorem rejected_check_consumes_no_quota
    (st : RLState) (z : String → List Int) (key : String) (lim : Nat) (win now : Int) :
    (∀ r t st2, inmem_is_allowed st key lim win now = ((false, r, t), st2) →
       st2 key = (st key).filter (fun ts => decide (now - win < ts))) ∧
    ((z ("ratelimit:" ++ key)).length ≤ lim →
       ∀ r t z2, redis_is_allowed (.live z) key lim win now = ((false, r, t), .live z2) →
         z2 ("ratelimit:" ++ key) =
           (z ("ratelimit:" ++ key)).filter
             (fun ts => decide (ts < 0) || decide (now - win < ts))) ∧
    (∀ res z2, redis_is_allowed (.live z) key lim win now = (res, .live z2) →
       (z ("ratelimit:" ++ key)).length ≤ lim →
       (z2 ("ratelimit:" ++ key)).length ≤ lim) := by
  constructor
  · intro r t st2 heq
    simp only [inmem_is_allowed] at heq
    by_cases h : lim ≤ ((st key).filter (fun ts => decide (now - win < ts))).length
    · rw [if_pos h] at heq
      injection heq with ha hb
      rw [← hb, upd_same]
    · rw [if_neg h] at heq
      injection heq with ha hb
      injection ha with ha1 ha2
      simp at ha1
  constructor
  · intro hb r t z2 heq
    simp only [redis_is_allowed] at heq
    have hlen : ((z ("ratelimit:" ++ key)).filter
        (fun ts => decide (ts < 0) || decide (now - win < ts))).length ≤
        (z ("ratelimit:" ++ key)).length := List.length_filter_le _ _
    by_cases hmem : now ∈ (z ("ratelimit:" ++ key)).filter
        (fun ts => decide (ts < 0) || decide (now - win < ts))
    · rw [if_pos hmem] at heq
      rw [if_neg (by omega)] at heq
      injection heq with ha hb2
      injection ha with ha1 ha2
      simp at ha1
    · rw [if_neg hmem] at heq
      by_cases hcnt : lim < ((z ("ratelimit:" ++ key)).filter
          (fun ts => decide (ts < 0) || decide (now - win < ts))).length + 1
      · rw [List.length_append, List.length_singleton] at heq
        rw [if_pos hcnt] at heq
        injection heq with ha hb2
        injection hb2 with hz
        rw [← hz, upd_same, List.filter_append]
        have h1 : ((z ("ratelimit:" ++ key)).filter
            (fun ts => decide (ts < 0) || decide (now - win < ts))).filter
            (fun ts => !decide (ts = now)) =
            (z ("ratelimit:" ++ key)).filter
              (fun ts => decide (ts < 0) || decide (now - win < ts)) := by
          apply List.filter_eq_self.mpr
          intro a ha2
          simp only [Bool.not_eq_true', decide_eq_false_iff_not]
          intro hcontra
          exact hmem (hcontra ▸ ha2)
        rw [h1]
        simp
      · rw [List.length_append, List.length_singleton] at heq
        rw [if_neg hcnt] at heq
        injection heq with ha hb2
        injection ha with ha1 ha2
        simp at ha1
  · intro res z2 heq hb
    simp only [redis_is_allowed] at heq
    have hlen : ((z ("ratelimit:" ++ key)).filter
        (fun ts => decide (ts < 0) || decide (now - win < ts))).length ≤
        (z ("ratelimit:" ++ key)).length := List.length_filter_le _ _
    by_cases hmem : now ∈ (z ("ratelimit:" ++ key)).filter
        (fun ts => decide (ts < 0) || decide (now - win < ts))
    · rw [if_pos hmem] at heq
      rw [if_neg (by omega)] at heq
      injection heq with ha hb2
      injection hb2 with hz
      rw [← hz, upd_same]
      omega
    · rw [if_neg hmem] at heq
      by_cases hcnt : lim < ((z ("ratelimit:" ++ key)).filter
          (fun ts => decide (ts < 0) || decide (now - win < ts))).length + 1
      · rw [List.length_append, List.length_singleton] at heq
        rw [if_pos hcnt] at heq
        injection heq with ha hb2
        injection hb2 with hz
        rw [← hz, upd_same]
        have h1 : ((z ("ratelimit:" ++ key)).filter
            (fun ts => decide (ts < 0) || decide (now - win < ts))).filter
            (fun ts => !decide (ts = now)) =
            (z ("ratelimit:" ++ key)).filter
              (fun ts => decide (ts < 0) || decide (now - win < ts)) := by
          apply List.filter_eq_self.mpr
          intro a ha2
          simp only [Bool.not_eq_true', decide_eq_false_iff_not]
          intro hcontra
          exact hmem (hcontra ▸ ha2)
        rw [List.filter_append, h1]
        simp
        omega
      · rw [List.length_append, List.length_singleton] at heq
        rw [if_neg hcnt] at heq
        injection heq with ha hb2
        injection hb2 with hz
        rw [← hz, upd_same, List.length_append, List.length_singleton]
        omega

/-- Witness for C10: with limit 1, a second call at time 6 for a key holding
the admitted timestamp 5 is rejected and leaves the pruned list unchanged. -/
theorem rejected_check_consumes_no_quota_witness :
    (inmem_is_allowed (upd emptyRL "k" [5]) "k" 1 60 6).2 "k" =
      ((upd emptyRL "k" [5]) "k").filter (fun ts => decide ((6 : Int) - 60 < ts)) :=
  (rejected_check_consumes_no_quota (upd emptyRL "k" [5]) (fun _ => []) "k" 1 60 6).1
    0 59 ((inmem_is_allowed (upd emptyRL "k" [5]) "k" 1 60 6).2) rfl

/-! ## Create-path helper lemmas -/

theorem set_dedup_get_ne (c : Cache) (h1 h2 code : String) (hne : h2 ≠ h1) :
    (c.set_dedup h1 code).get_dedup h2 = c.get_dedup h2 := by
  by_cases hup : c.up = true <;>
    simp [Cache.set_dedup, Cache.get_dedup, hup, upd_ne _ _ _ _ hne]

theorem set_url_get_dedup (c : Cache) (code url h : String) :
    (c.set_url code url).get_dedup h = c.get_dedup h := by
  by_cases hup : c.up = true <;>
    simp [Cache.set_url, Cache.get_dedup, hup]

/-- The cached dedup projection agrees with the durable dedup table at hash
`h`: the cache holds only disposable projections of what the system wrote, and
on disagreement the durable store wins. -/
def DedupCoherent (s : SState) (h : String) : Prop :=
  ∀ c, s.cache.get_dedup h = some c → s.db.dedup h = some c

/-- After a successful create without custom alias, the durable dedup table
maps the URL's hash to the returned short code (provided the cache's dedup
entry, if any, agreed with the durable table beforehand); moreover the URL
passed validation. -/
theorem create_ok_dedup_points_to_code
    (sha : String → List Nat) (urlSafe aliasSafe : String → Bool)
    (r2 r6 : List Nat) (t : Int) (url : String) (uid : Option String) (ttl : Nat)
    (s s1 : SState) (resp : ShortenResponse)
    (hco : DedupCoherent s (get_url_hash sha url))
    (heq : create_short_url sha urlSafe aliasSafe r2 r6 t ⟨url, none, uid, ttl⟩ s =
      (.ok resp, s1)) :
    s1.db.dedup (get_url_hash sha url) = some resp.short_code ∧ urlSafe url = true := by
  by_cases hu : urlSafe url = true
  case neg =>
    exfalso
    have hfu : urlSafe url = false := by revert hu; cases urlSafe url <;> simp
    simp [create_short_url, hfu] at heq
  refine ⟨?_, hu⟩
  unfold create_short_url at heq
  rw [if_neg (by simp [hu]), if_neg (by simp)] at heq
  cases hc : s.cache.get_dedup (get_url_hash sha url) with
  | some c =>
    simp only [hc] at heq
    obtain ⟨h1, h2⟩ := Prod.mk.injEq .. ▸ heq
    cases h1
    subst h2
    exact hco c hc
  | none =>
    simp only [hc] at heq
    cases hd : s.db.dedup (get_url_hash sha url) with
    | some c =>
      simp only [hd] at heq
      obtain ⟨h1, h2⟩ := Prod.mk.injEq .. ▸ heq
      cases h1
      subst h2
      exact hd
    | none =>
      simp only [hd] at heq
      cases hg : s.db.urls (generate_short_code sha r2 url) with
      | none =>
        simp only [hg, insert_and_respond] at heq
        obtain ⟨h1, h2⟩ := Prod.mk.injEq .. ▸ heq
        cases h1
        subst h2
        exact upd_same ..
      | some r0 =>
        simp only [hg] at heq
        cases hf : s.db.urls (fallback_code r6) with
        | some r1 =>
          simp only [hf] at heq
          simp at heq
        | none =>
          simp only [hf, insert_and_respond] at heq
          obtain ⟨h1, h2⟩ := Prod.mk.injEq .. ▸ heq
          cases h1
          subst h2
          exact upd_same ..

/-- With the durable dedup table already pointing at `code`, a valid-URL
create without custom alias returns `code`, whether the dedup entry is served
from a coherent cache or repaired from the durable store. -/
theorem create_dedup_hit_returns_code
    (sha : String → List Nat) (urlSafe aliasSafe : String → Bool)
    (r2 r6 : List Nat) (t : Int) (url code : String) (uid : Option String) (ttl : Nat)
    (s : SState)
    (hco : DedupCoherent s (get_url_hash sha url))
    (hu : urlSafe url = true)
    (hd : s.db.dedup (get_url_hash sha url) = some code) :
    ∃ s1, create_short_url sha urlSafe aliasSafe r2 r6 t ⟨url, none, uid, ttl⟩ s =
      (.ok ⟨code, base_url ++ "/" ++ code, url⟩, s1) := by
  unfold create_short_url
  rw [if_neg (by simp [hu]), if_neg (by simp)]
  cases hc : s.cache.get_dedup (get_url_hash sha url) with
  | some c =>
    have : c = code := by
      have := hco c hc
      rw [hd] at this
      exact (Option.some.injEq .. ▸ this).symm
    subst this
    exact ⟨s, by simp only [hc]⟩
  | none =>
    refine ⟨{ s with cache := s.cache.set_dedup (get_url_hash sha url) code }, ?_⟩
    simp only [hc, hd]

/-! ## C2 — idempotent create for the same URL -/

/-- C2: creating the same URL twice without a custom alias returns the same
short code both times.  The first call (from a dedup-coherent state) leaves
the durable dedup table pointing at the returned code; the second call then
returns that very code from any state with the same durable dedup entry and a
coherent cache — whether the entry is served from the cache or repaired from
the durable store. -/
theorem create_idempotent_same_url
    (sha : String → List Nat) (urlSafe aliasSafe : String → Bool)
    (r2 r6 r2b r6b : List Nat) (t1 t2 : Int) (url : String) (uid1 uid2 : Option String)
    (ttl1 ttl2 : Nat) (s0 s1 s2 : SState) (resp1 : ShortenResponse)
    (hco0 : DedupCoherent s0 (get_url_hash sha url))
    (h1 : create_short_url sha urlSafe aliasSafe r2 r6 t1 ⟨url, none, uid1, ttl1⟩ s0 =
      (.ok resp1, s1))
    (hdb : s2.db.dedup (get_url_hash sha url) = s1.db.dedup (get_url_hash sha url))
    (hco2 : DedupCoherent s2 (get_url_hash sha url)) :
    ∃ s3, create_short_url sha urlSafe aliasSafe r2b r6b t2 ⟨url, none, uid2, ttl2⟩ s2 =
      (.ok ⟨resp1.short_code, base_url ++ "/" ++ resp1.short_code, url⟩, s3) := by
  obtain ⟨hded, hu⟩ :=
    create_ok_dedup_points_to_code sha urlSafe aliasSafe r2 r6 t1 url uid1 ttl1 s0 s1
      resp1 hco0 h1
  exact create_dedup_hit_returns_code sha urlSafe aliasSafe r2b r6b t2 url
    resp1.short_code uid2 ttl2 s2 hco2 hu (hdb.trans hded)

/-- State after a first concrete create of `https://example.com/a` (its code
under the all-zero digest is `AAAAAAAA`). -/
def c2State1 : SState :=
  (create_short_url cSha cTrue cTrue [0, 0] [0, 0, 0, 0, 0, 0] 0
    ⟨"https://example.com/a", none, none, 1⟩ emptySState).2

/-- The same durable state with the volatile cache wiped (simulating
eviction between the two calls). -/
def c2State2 : SState := ⟨c2State1.db, ⟨true, fun _ => none, fun _ => none⟩⟩

/-- Witness for C2: after creating `https://example.com/a` and wiping the
cache, a second create returns the same code `AAAAAAAA`, repaired from the
durable store. -/
theorem create_idempotent_same_url_witness :
    ∃ s3, create_short_url cSha cTrue cTrue [1, 1] [0, 0, 0, 0, 0, 0] 9
        ⟨"https://example.com/a", none, none, 2⟩ c2State2 =
      (.ok ⟨"AAAAAAAA", base_url ++ "/" ++ "AAAAAAAA", "https://example.com/a"⟩, s3) :=
  create_idempotent_same_url cSha cTrue cTrue [0, 0] [0, 0, 0, 0, 0, 0] [1, 1]
    [0, 0, 0, 0, 0, 0] 0 9 "https://example.com/a" none none 1 2 emptySState c2State1
    c2State2 ⟨"AAAAAAAA", base_url ++ "/" ++ "AAAAAAAA", "https://example.com/a"⟩
    (fun c hc => Option.noConfusion hc) rfl rfl
    (fun c hc => Option.noConfusion hc)

/-! ## C3 — custom alias conflict -/

/-- A first create of `https://example.com/a` with custom alias `foo` from the
empty state. -/
def c3Req : ShortenRequest := ⟨"https://example.com/a", some "foo", none, 1⟩

/-- State after that first aliased create (record stored under `foo`). -/
def c3State1 : SState :=
  (create_short_url cSha cTrue cTrue [0, 0] [0, 0, 0, 0, 0, 0] 0 c3Req emptySState).2

/-- C3 counterexample: with a record already existing under the requested
alias `foo`, a second `createShortURL` with `customAlias = "foo"` and the same
long URL succeeds via the dedup short-circuit instead of failing with the 409
AliasTaken error. -/
theorem create_same_url_alias_twice_succeeds :
    (c3State1.db.urls "foo").isSome = true ∧
    (create_short_url cSha cTrue cTrue [0, 0] [0, 0, 0, 0, 0, 0] 5 c3Req c3State1).1 =
      .ok ⟨"foo", "http://localhost:8000/foo", "https://example.com/a"⟩ :=
  ⟨rfl, rfl⟩

/-- C3 (amended): creating twice with `customAlias = "foo"` yields success
then AliasTaken whenever a record exists under the alias and the second call's
URL is not itself already deduplicated: from a state where the alias is free
and the first URL misses both dedup layers, the first call succeeds and
stores the record under the alias; a second call with a different URL hash
that also misses both dedup layers then fails with the 409 AliasTaken error. -/
theorem create_alias_taken_on_second
    (sha : String → List Nat) (urlSafe aliasSafe : String → Bool)
    (r2 r6 r2b r6b : List Nat) (t1 t2 : Int) (url1 url2 a : String)
    (uid1 uid2 : Option String) (ttl1 ttl2 : Nat) (s0 : SState)
    (hu1 : urlSafe url1 = true) (hu2 : urlSafe url2 = true) (ha : aliasSafe a = true)
    (hne : get_url_hash sha url2 ≠ get_url_hash sha url1)
    (hc1 : s0.cache.get_dedup (get_url_hash sha url1) = none)
    (hd1 : s0.db.dedup (get_url_hash sha url1) = none)
    (hfree : s0.db.urls a = none)
    (hc2 : s0.cache.get_dedup (get_url_hash sha url2) = none)
    (hd2 : s0.db.dedup (get_url_hash sha url2) = none) :
    ∃ s1, create_short_url sha urlSafe aliasSafe r2 r6 t1 ⟨url1, some a, uid1, ttl1⟩ s0 =
        (.ok ⟨a, base_url ++ "/" ++ a, url1⟩, s1) ∧
      (create_short_url sha urlSafe aliasSafe r2b r6b t2 ⟨url2, some a, uid2, ttl2⟩ s1).1 =
        .error errAliasTaken := by
  refine ⟨(insert_and_respond (get_url_hash sha url1) a t1
      ⟨url1, some a, uid1, ttl1⟩ s0).2, ?_, ?_⟩
  · unfold create_short_url
    rw [if_neg (by simp [hu1]), if_neg (by simp [ha])]
    simp only [hc1, hd1, hfree]
    rfl
  · unfold create_short_url
    rw [if_neg (by simp [hu2]), if_neg (by simp [ha])]
    have hcache2 : ((insert_and_respond (get_url_hash sha url1) a t1
        ⟨url1, some a, uid1, ttl1⟩ s0).2).cache.get_dedup (get_url_hash sha url2) = none := by
      simp only [insert_and_respond]
      rw [set_dedup_get_ne _ _ _ _ hne, set_url_get_dedup]
      exact hc2
    have hdb2 : ((insert_and_respond (get_url_hash sha url1) a t1
        ⟨url1, some a, uid1, ttl1⟩ s0).2).db.dedup (get_url_hash sha url2) = none := by
      simp only [insert_and_respond]
      rw [upd_ne _ _ _ _ hne]
      exact hd2
    have hrec : ((insert_and_respond (get_url_hash sha url1) a t1
        ⟨url1, some a, uid1, ttl1⟩ s0).2).db.urls a =
        some ⟨url1, t1, some (t1 + (ttl1 : Int) * secondsPerDay),
              uid1.map (fun u => u.take 100)⟩ := by
      simp only [insert_and_respond]
      exact upd_same ..
    simp only [hcache2, hdb2, hrec]
    rfl

/-- Witness for the amended C3: creating `foo` for one URL, then requesting
`foo` for a different URL, yields success then the 409 AliasTaken error
(digest function mapping each URL to a distinct digest). -/
def c3Sha : String → List Nat :=
  fun u => if u = "https://example.com/a" then List.replicate 32 0 else List.replicate 32 1

theorem create_alias_taken_on_second_witness :
    ∃ s1, create_short_url c3Sha cTrue cTrue [0, 0] [0, 0, 0, 0, 0, 0] 0
        ⟨"https://example.com/a", some "foo", none, 1⟩ emptySState =
        (.ok ⟨"foo", base_url ++ "/" ++ "foo", "https://example.com/a"⟩, s1) ∧
      (create_short_url c3Sha cTrue cTrue [0, 0] [0, 0, 0, 0, 0, 0] 5
        ⟨"https://example.com/b", some "foo", none, 1⟩ s1).1 = .error errAliasTaken :=
  create_alias_taken_on_second c3Sha cTrue cTrue [0, 0] [0, 0, 0, 0, 0, 0] [0, 0]
    [0, 0, 0, 0, 0, 0] 0 5 "https://example.com/a" "https://example.com/b" "foo" none none
    1 1 emptySState rfl rfl rfl (by decide) rfl rfl rfl rfl rfl

/-! ## C6 — collision regeneration exactly once -/

/-- C6: with no custom alias and a full dedup miss, when the auto-generated
code collides with an existing record the service regenerates exactly once via
the higher-entropy fallback — an encoding of the 6 fresh random bytes that
does not consult the URL: if the fallback code is unoccupied the create
returns exactly `fallback_code rand6`; if the fallback code is also occupied
the call fails with the 500 GenerationExhausted server error and the state is
unchanged (no further retry). -/
theorem create_collision_regenerates_once
    (sha : String → List Nat) (urlSafe aliasSafe : String → Bool)
    (rand2 rand6 : List Nat) (now : Int) (url : String) (uid : Option String) (ttl : Nat)
    (s : SState) (rec0 : URLRecord)
    (hu : urlSafe url = true)
    (hc : s.cache.get_dedup (get_url_hash sha url) = none)
    (hd : s.db.dedup (get_url_hash sha url) = none)
    (hcol : s.db.urls (generate_short_code sha rand2 url) = some rec0) :
    (s.db.urls (fallback_code rand6) = none →
       (create_short_url sha urlSafe aliasSafe rand2 rand6 now ⟨url, none, uid, ttl⟩ s).1 =
         .ok ⟨fallback_code rand6, base_url ++ "/" ++ fallback_code rand6, url⟩) ∧
    (∀ rec1, s.db.urls (fallback_code rand6) = some rec1 →
       create_short_url sha urlSafe aliasSafe rand2 rand6 now ⟨url, none, uid, ttl⟩ s =
         (.error errGenExhausted, s)) := by
  constructor
  · intro hfb
    unfold create_short_url
    rw [if_neg (by simp [hu]), if_neg (by simp)]
    simp only [hc, hd, hcol, hfb, Option.isSome_none, Bool.false_eq_true, if_false,
      insert_and_respond]
  · intro rec1 hfb
    unfold create_short_url
    rw [if_neg (by simp [hu]), if_neg (by simp)]
    simp only [hc, hd, hcol, hfb, Option.isSome_none, Bool.false_eq_true, if_false]

/-- Collision state for the C6 witness: the all-zero digest's generated code
`AAAAAAAA` is occupied by another URL's record; the fallback code is free. -/
def collisionState : SState :=
  ⟨⟨upd (fun _ => none) "AAAAAAAA" (some ⟨"https://other.example/x", 0, some 10, none⟩),
    fun _ => none, fun _ => none⟩, ⟨true, fun _ => none, fun _ => none⟩⟩

/-- Witness for C6: the colliding create regenerates once and returns the
fallback code derived from the 6 fresh random bytes. -/
theorem create_collision_regenerates_once_witness :
    (create_short_url cSha cTrue cTrue [0, 0] [0, 0, 0, 1, 0, 0] 0
        ⟨"https://example.com/a", none, none, 1⟩ collisionState).1 =
      .ok ⟨fallback_code [0, 0, 0, 1, 0, 0],
           base_url ++ "/" ++ fallback_code [0, 0, 0, 1, 0, 0], "https://example.com/a"⟩ :=
  (create_collision_regenerates_once cSha cTrue cTrue [0, 0] [0, 0, 0, 1, 0, 0] 0
      "https://example.com/a" none 1 collisionState
      ⟨"https://other.example/x", 0, some 10, none⟩
      rfl rfl rfl rfl).1 rfl

end UrlShortner
